import Mathlib

set_option maxHeartbeats 1000000
set_option maxRecDepth 100000

/-!
Shallow embedding of the Exiabot reply-decision and context engine.

The definitions below are translated from `src/Exia2.py` (the enhanced
variant); the legacy variant `src/exi.py` is modelled where a claim cites
it (the completion-failure reply path).  Timestamps and probability draws
are modelled as integer
seconds (`time.time()` values) and rational numbers (`random.random()`
draws and the configured probabilities; written with `mkRat`, the faithful
image of the float literals); Python dictionaries with default values (`defaultdict`,
get-or-create accessors) are modelled as total functions whose value at an
absent key is the default.  The `deque(maxlen=n)` bounded queues are
modelled by an append that drops the oldest element when the capacity is
reached.  Network and Discord I/O are inputs: the fetched history, the
LLM attempt results and the random draws are passed in as arguments.
-/

namespace Exia

/-! ### Characters and strings

Python string primitives (`str.strip`, `str.lower`, `str.split`,
`str.startswith`, and the two regexes of the source) are modelled by
structurally recursive functions over the character list, restricted to
ASCII semantics. -/

/-- Whitespace class of Python `str.strip` / `str.split` / regex `\s`. -/
def isWs (c : Char) : Bool :=
  c == ' ' || c == '\t' || c == '\n' || c == '\r' || c == '\x0b' || c == '\x0c'

/-- Python `str.lower` (ASCII). -/
def lowerStr (s : String) : String := ⟨s.data.map Char.toLower⟩

/-- Python `str.strip`. -/
def stripStr (s : String) : String :=
  ⟨((s.data.dropWhile isWs).reverse.dropWhile isWs).reverse⟩

def charsBegin : List Char → List Char → Bool
  | [], _ => true
  | _ :: _, [] => false
  | p :: ps, c :: cs => p == c && charsBegin ps cs

/-- Python `str.startswith`: `beginsWith p s` holds when `s` starts with `p`. -/
def beginsWith (p s : String) : Bool := charsBegin p.data s.data

def splitWsAux : List Char → List Char → List String
  | cur, [] => if cur.isEmpty then [] else [⟨cur.reverse⟩]
  | cur, c :: cs =>
    if isWs c then
      if cur.isEmpty then splitWsAux [] cs else ⟨cur.reverse⟩ :: splitWsAux [] cs
    else splitWsAux (c :: cur) cs

/-- Python `str.split()` with no separator: split on whitespace runs. -/
def splitWs (s : String) : List String := splitWsAux [] s.data

/-- Word characters of the regex `\b` boundary (ASCII `\w`). -/
def isWordChar (c : Char) : Bool := c.isAlpha || c.isDigit || c == '_'

/-- Whether an already lower-cased character list starts with `exia`
followed by a word boundary. -/
def matchExiaHere : List Char → Bool
  | 'e' :: 'x' :: 'i' :: 'a' :: rest =>
    match rest with
    | [] => true
    | r :: _ => !isWordChar r
  | _ => false

/-- Scanner for `re.search(r"\bexia\b", content, re.IGNORECASE)` over an
already lower-cased character list; the flag records whether the current
position sits at a word boundary (start of string or after a non-word
character). -/
def searchExia : Bool → List Char → Bool
  | _, [] => false
  | atB, c :: rest =>
    (atB && matchExiaHere (c :: rest)) || searchExia (!isWordChar c) rest

/-- `bool(re.search(r"\bexia\b", s, re.IGNORECASE))` (src/Exia2.py line 1121). -/
def mentionsExia (s : String) : Bool := searchExia true (s.data.map Char.toLower)

/-! ### Configuration constants (src/Exia2.py lines 99-106, 132-140, 421-424). -/

def REACTION_CHANCE : ℚ := mkRat 3 1000
def API_RETRIES : Nat := 3
def MAX_CONTEXT_MESSAGES : Nat := 30
def CONTEXT_TIME_WINDOW : ℤ := 600
def MAX_TOKENS_ESTIMATE : Nat := 3000
/-- `deque(maxlen=self.max_context_messages * 2)`. -/
def MEMORY_CAP : Nat := MAX_CONTEXT_MESSAGES * 2
def BORED_CHANCE_INCREMENT : ℚ := mkRat 1 50
def BORED_CHANCE_MAX : ℚ := mkRat 1 2
def COMMAND_COOLDOWN : ℤ := 3

/-! ### Conversation memory (ConversationContextManager) -/

inductive Role
  | system
  | user
  | assistant
deriving DecidableEq

/-- A role-tagged message handed to the language model. -/
structure CtxMsg where
  role : Role
  content : String
deriving DecidableEq

/-- An entry of a channel conversation memory.  Entries produced by
`fetch_discord_messages` carry an author id; entries appended by
`save_bot_response` do not. -/
structure Entry where
  role : Role
  content : String
  timestamp : ℤ
  author : Option Nat
deriving DecidableEq

/-- Append to a `deque(maxlen=cap)`: when the queue is full the oldest
element is discarded. -/
def pushCapped {α : Type} (cap : Nat) (l : List α) (e : α) : List α :=
  if l.length < cap then l ++ [e] else l.drop 1 ++ [e]

/-- The eviction loop of `update_channel_memory`: pop entries from the
left while the head is older than the time window. -/
def evictOld (now : ℤ) (memory : List Entry) : List Entry :=
  memory.dropWhile (fun e => decide (now - e.timestamp > CONTEXT_TIME_WINDOW))

/-- `ConversationContextManager.update_channel_memory` (src/Exia2.py lines
236-252): evict entries older than the window, snapshot the existing
timestamps, then append every incoming message whose timestamp is not in
that snapshot. -/
def update_channel_memory (memory : List Entry) (msgs : List Entry) (now : ℤ) :
    List Entry :=
  let m := evictOld now memory
  let existing : List ℤ := m.map (·.timestamp)
  msgs.foldl
    (fun acc msg =>
      if msg.timestamp ∈ existing then acc else pushCapped MEMORY_CAP acc msg) m

/-- The channel-memory effect of `save_bot_response` (src/Exia2.py lines
314-322): unconditionally append an assistant entry stamped with the
current time. -/
def save_bot_response_mem (memory : List Entry) (response : String) (now : ℤ) :
    List Entry :=
  pushCapped MEMORY_CAP memory
    { role := .assistant, content := "exia: " ++ response, timestamp := now,
      author := none }

/-- `context[-n:]` — keep the most recent `n` elements. -/
def takeNewest (n : Nat) (l : List CtxMsg) : List CtxMsg :=
  if l.length > n then l.drop (l.length - n) else l

/-- `ConversationContextManager.get_relevant_context` (src/Exia2.py lines
254-275): entries within the time window, formatted for the LLM, capped at
the most recent `MAX_CONTEXT_MESSAGES`. -/
def get_relevant_context (memory : List Entry) (now : ℤ) : List CtxMsg :=
  takeNewest MAX_CONTEXT_MESSAGES
    ((memory.filter (fun e => decide (now - e.timestamp ≤ CONTEXT_TIME_WINDOW))).map
      (fun e => { role := e.role, content := e.content }))

/-- `estimate_tokens` (src/Exia2.py line 280): `len(text) // 4`. -/
def estimate_tokens (text : String) : Nat := text.length / 4

/-- Total estimated token cost of a message list. -/
def estTotal (l : List CtxMsg) : Nat := (l.map (fun m => estimate_tokens m.content)).sum

def isSystem (m : CtxMsg) : Bool := m.role == .system

/-- The `while total_tokens > limit and len(conversation_messages) > 10`
trimming loop of `trim_to_token_limit`: drop the oldest conversational
message and subtract its estimated cost from the running total. -/
def trimConv : List CtxMsg → Nat → List CtxMsg
  | [], _ => []
  | c :: rest, total =>
    if total > MAX_TOKENS_ESTIMATE ∧ (c :: rest).length > 10 then
      trimConv rest (total - estimate_tokens c.content)
    else c :: rest

/-- `ConversationContextManager.trim_to_token_limit` (src/Exia2.py lines
277-302).  Lists of at most two messages are returned unchanged;
otherwise the system messages are separated out, the oldest conversational
messages are dropped while the running total exceeds the budget and more
than ten conversational messages remain, and the result is the system
messages followed by the surviving conversational messages. -/
def trim_to_token_limit (messages : List CtxMsg) : List CtxMsg :=
  if messages.length ≤ 2 then messages
  else
    messages.filter isSystem ++
      trimConv (messages.filter (fun m => !isSystem m)) (estTotal messages)

/-- The manager state: per-channel conversation memory and per-channel
bot-response log (both dictionaries of bounded deques; an absent channel is
the empty list). -/
structure CtxState where
  channel_conversations : Nat → List Entry
  bot_responses : Nat → List (ℤ × String)

/-- The fixed instructional system message of `build_context`
(src/Exia2.py lines 177-185). -/
def INSTRUCTION_MSG : String :=
  "You\x27re seeing the recent conversation history. Messages from \x27exia\x27 are your own past responses. Pay attention to the flow of conversation and respond naturally. Remember what people were talking about and stay engaged."

/-- `ConversationContextManager.build_context` (src/Exia2.py lines 153-202)
given the already-fetched platform history (`fetch_discord_messages` is
platform I/O; its output list is the `fetched` argument).  Merges the
fetched messages into the channel memory, assembles persona prompt +
instruction + relevant context, trims to the token budget, and appends the
triggering message tagged `display_name: content` last. -/
def build_context (ctx : CtxState) (channel : Nat) (fetched : List Entry)
    (authorName msgContent sysPrompt : String) (now : ℤ) :
    List CtxMsg × CtxState :=
  let mem := update_channel_memory (ctx.channel_conversations channel) fetched now
  let ctx' : CtxState :=
    { ctx with
      channel_conversations := fun c =>
        if c = channel then mem else ctx.channel_conversations c }
  let base : List CtxMsg :=
    { role := .system, content := sysPrompt } ::
      { role := .system, content := INSTRUCTION_MSG } ::
        get_relevant_context mem now
  (trim_to_token_limit base ++
      [{ role := .user, content := authorName ++ ": " ++ msgContent }],
    ctx')

/-- `ConversationContextManager.save_bot_response` (src/Exia2.py lines
304-322): record the reply in the bot-response log (capacity 20) and in the
channel conversation memory. -/
def save_bot_response (ctx : CtxState) (channel : Nat) (response : String)
    (now : ℤ) : CtxState :=
  { ctx with
    channel_conversations := fun c =>
      if c = channel then
        save_bot_response_mem (ctx.channel_conversations channel) response now
      else ctx.channel_conversations c,
    bot_responses := fun c =>
      if c = channel then pushCapped 20 (ctx.bot_responses channel) (now, response)
      else ctx.bot_responses c }

/-! ### Global bot state and the reply decision (on_message)

The model covers guild text messages from non-bot users
(`message.author.bot` and DM messages are filtered out before the code the
claims cite).  `update_user_stats` and the accepted-reply path call
`time.time()` again a few statements after `now = time.time()`; both reads
are modelled as the same instant `now`.  `get_guild_settings` inserts a
default `GuildSettings()` on first access; with settings modelled as a
total function whose default is that record, the insertion is a no-op. -/

structure UserStats where
  messages_sent : Nat := 0
  commands_used : Nat := 0
  reminders_set : Nat := 0
  last_seen : ℤ := 0
deriving DecidableEq

structure GuildSettings where
  boredom_channel : Option Nat := none
  presence_channel : Option Nat := none
  admin_users : List Nat := []
  disabled_channels : List Nat := []
  reply_chance_override : Option ℚ := none
deriving DecidableEq

structure BotState where
  blacklist : List Nat
  bot_enabled : Bool
  boredom_enabled : Bool
  phantom_replies_enabled : Bool
  timeout_until : ℤ
  user_cooldowns : Nat → ℤ
  command_cooldowns : Nat → ℤ
  last_engaged_time : ℤ
  last_user_message_time : ℤ
  reply_chance_base : ℚ
  bored_chance : ℚ
  user_stats : Nat → UserStats
  guild_settings : Nat → GuildSettings
  ctx : CtxState

/-- An inbound guild message from a non-bot user.  `mentionsUsers` is the
platform metadata `message.mentions` (user mentions, used only by the
argument checks of some commands). -/
structure Msg where
  author : Nat
  content : String
  channel : Nat
  guild : Nat
  mentionsUsers : List Nat

inductive StatType
  | message
  | command
  | reminder
deriving DecidableEq

/-- The per-user part of `BotState.update_user_stats` (src/Exia2.py lines
541-554). -/
def bumpStats (s : UserStats) (t : StatType) (now : ℤ) : UserStats :=
  let s' := { s with last_seen := now }
  match t with
  | .message => { s' with messages_sent := s'.messages_sent + 1 }
  | .command => { s' with commands_used := s'.commands_used + 1 }
  | .reminder => { s' with reminders_set := s'.reminders_set + 1 }

/-- `BotState.update_user_stats` on the whole state. -/
def update_user_stats (st : BotState) (uid : Nat) (t : StatType) (now : ℤ) :
    BotState :=
  { st with
    user_stats := fun u =>
      if u = uid then bumpStats (st.user_stats uid) t now else st.user_stats u }

/-- Whether a `!`-prefixed message matches one of the command branches of
`on_message` (src/Exia2.py lines 923-1095).  Branches guarded by
`message.mentions` or argument counts fall through when the guard fails;
an unmatched `!` message falls through to the conversation handling. -/
def handledCommand (command : String) (nargs : Nat) (hasMentions : Bool) : Bool :=
  (command == "!setadmin" && hasMentions) ||
  (command == "!removeadmin" && hasMentions) ||
  (command == "!setchannel" && decide (0 < nargs)) ||
  command == "!globalstatus" ||
  command == "!shutdown" ||
  (command == "!blacklist" && hasMentions) ||
  (command == "!whitelist" && hasMentions) ||
  command == "!clearcontext" ||
  (command == "!maxreply" && decide (0 < nargs)) ||
  command == "!timeout" ||
  command == "!resume" ||
  command == "!toggle" ||
  (command == "!replychance" && decide (0 < nargs)) ||
  command == "!toggleboredom" ||
  command == "!togglephantom" ||
  command == "!help" ||
  command == "!status" ||
  command == "!contextinfo" ||
  command == "!mystats" ||
  (command == "!preference" && decide (2 ≤ nargs)) ||
  command == "!myreminders" ||
  (command == "!cancelreminder" && decide (0 < nargs)) ||
  command == "!commands"

/-- The reply-probability computation of `on_message` (src/Exia2.py lines
1130-1145), for a non-mention message with phantom replies enabled.
`chanceBase` is the guild override when set, else the global base. -/
def computeChance (lastUserMessageTime lastEngagedTime now : ℤ) (chanceBase : ℚ) : ℚ :=
  if now - lastUserMessageTime < 5 then
    if now - lastEngagedTime < 30 then mkRat 9 10 else mkRat 1 20
  else if now - lastEngagedTime < 180 then chanceBase
  else mkRat 1 20

inductive Outcome
  | blacklisted
  | commandRateLimited
  | command
  | suppressed
  | channelDisabled
  | reacted
  | skipped
  | reply
deriving DecidableEq

/-- The conversation-handling tail of `on_message` (src/Exia2.py lines
1097-1158): enabled/timeout gate, disabled-channel gate, update of
`last_user_message_time`, the independent reaction draw, the reply
decision, and the per-user cooldown gate.  An outcome of `.reply` means
`generate_response` is dispatched next, with exactly the returned state:
the cooldown and engagement updates happen before that suspending call.
`rReact` and `rReply` are the two `random.random()` draws. -/
def conversationStep (st : BotState) (msg : Msg) (now : ℤ) (rReact rReply : ℚ) :
    Outcome × BotState :=
  if ¬st.bot_enabled ∨ now < st.timeout_until then (.suppressed, st)
  else if msg.channel ∈ (st.guild_settings msg.guild).disabled_channels then
    (.channelDisabled, st)
  else
    let st2 := { st with last_user_message_time := now }
    if rReact < REACTION_CHANCE then (.reacted, st2)
    else
      let mentioned := mentionsExia (stripStr msg.content)
      let base_chance :=
        ((st2.guild_settings msg.guild).reply_chance_override).getD
          st2.reply_chance_base
      let force_reply : Bool :=
        if ¬st2.phantom_replies_enabled then mentioned
        else if mentioned then true
        else
          decide (rReply <
            computeChance st2.last_user_message_time st2.last_engaged_time now
              base_chance)
      if force_reply = false ∨ now - st2.user_cooldowns msg.author < 20 then
        (.skipped, st2)
      else
        (.reply,
          { st2 with
            user_cooldowns := fun u =>
              if u = msg.author then now else st2.user_cooldowns u,
            last_engaged_time := now })

/-- `on_message` (src/Exia2.py lines 885-1158) for a guild text message
from a non-bot user: blacklist gate, user-statistics update, command
dispatch (command handlers themselves acknowledge and mutate settings;
the `.command` outcome marks dispatch to them), then the conversation
handling. -/
def on_message (st : BotState) (msg : Msg) (now : ℤ) (rReact rReply : ℚ) :
    Outcome × BotState :=
  if msg.author ∈ st.blacklist then (.blacklisted, st)
  else
    let content := stripStr msg.content
    let cmd := lowerStr content
    let st1 := update_user_stats st msg.author .message now
    if beginsWith "!" cmd then
      if now - st1.command_cooldowns msg.author < COMMAND_COOLDOWN then
        (.commandRateLimited, st1)
      else
        let st2 :=
          { st1 with
            command_cooldowns := fun u =>
              if u = msg.author then now else st1.command_cooldowns u }
        let st3 := update_user_stats st2 msg.author .command now
        let parts := splitWs content
        if handledCommand (lowerStr (parts.headD "")) parts.tail.length
            (!msg.mentionsUsers.isEmpty) then
          (.command, st3)
        else conversationStep st3 msg now rReact rReply
    else conversationStep st1 msg now rReact rReply

/-! ### Boredom loop -/

/-- One iteration of the body of `boredom_loop` (src/Exia2.py lines
1400-1446).  `haveChannel` records whether the guild scan found a channel
the bot can post in; when the draw fires and a channel exists, a bored
message is sent (the returned flag), the boredom chance resets and the
engagement timestamp advances.  The `last_engaged_time = time.time()` read
after the send is modelled as `now`. -/
def boredom_step (st : BotState) (now : ℤ) (r : ℚ) (haveChannel : Bool) :
    BotState × Bool :=
  if ¬st.bot_enabled ∨ ¬st.boredom_enabled then (st, false)
  else if now - st.last_engaged_time > 300 then
    let b := min BORED_CHANCE_MAX (st.bored_chance + BORED_CHANCE_INCREMENT)
    if r < b ∧ haveChannel then
      ({ st with bored_chance := 0, last_engaged_time := now }, true)
    else ({ st with bored_chance := b }, false)
  else (st, false)

/-! ### Completion client (call_llm) and the response path -/

/-- The observable result of one HTTP attempt inside `call_llm`
(src/Exia2.py lines 594-617): a 200 response whose payload either has a
non-empty `choices` (the text) or not (malformed), a 429, another status,
a timeout, or another exception. -/
inductive LLMAttempt
  | ok (payload : Option String)
  | rateLimited
  | httpError (status : Nat)
  | timeoutErr
  | exc (msg : String)

/-- The retry loop of `call_llm`: a 200 with text returns it, a 200 with a
malformed payload returns `None` immediately, every other outcome falls
through to the next attempt; exhausting the attempts returns `None`. -/
def run_attempts : List LLMAttempt → Option String
  | [] => none
  | .ok (some text) :: _ => some text
  | .ok none :: _ => none
  | .rateLimited :: rest => run_attempts rest
  | .httpError _ :: rest => run_attempts rest
  | .timeoutErr :: rest => run_attempts rest
  | .exc _ :: rest => run_attempts rest

/-- `call_llm` (src/Exia2.py lines 581-619) driven by the oracle of
attempt results: at most `API_RETRIES` requests are made. -/
def call_llm (oracle : List LLMAttempt) : Option String :=
  run_attempts (oracle.take API_RETRIES)

/-- `a` is a terminally failing attempt (anything but a well-formed 200). -/
def isTerminalFailure : LLMAttempt → Bool
  | .ok (some _) => false
  | _ => true

/-- `re.sub(r"^(exia:\s*)", "", reply, flags=re.IGNORECASE)` (src/Exia2.py
line 1283). -/
def stripExiaLabel (s : String) : String :=
  if beginsWith "exia:" (lowerStr s) then ⟨(s.data.drop 5).dropWhile isWs⟩ else s

/-- The fixed fallback reply of `generate_response` (src/Exia2.py line 1279). -/
def FALLBACK_REPLY : String := "hmm something went wrong. maybe try again"

/-- The reply-selection and memory effect of `generate_response`
(src/Exia2.py lines 1271-1290), given the `call_llm` result: a falsy
result (`None` or the empty string) is replaced by the fixed fallback and
nothing is saved; otherwise the self-label is stripped and the reply is
saved to memory.  Context building (line 1261) is `build_context` above. -/
def generate_response (ctx : CtxState) (channel : Nat) (llm : Option String)
    (now : ℤ) : String × CtxState :=
  match llm with
  | none => (FALLBACK_REPLY, ctx)
  | some r =>
    if r = "" then (FALLBACK_REPLY, ctx)
    else (stripExiaLabel r, save_bot_response ctx channel (stripExiaLabel r) now)

/-- The completion-failure reply of the legacy variant (src/exi.py lines
236-240): `call_llm` there performs a bare `requests.post` with no retry,
so a transport failure raises; `on_message` catches the exception at the
call site and substitutes a reply that embeds the exception text. -/
def exi_on_message_reply (llmResult : Except String String) : String :=
  match llmResult with
  | .ok r => stripExiaLabel r
  | .error e => "exia: lmao something broke — " ++ e

/-! ### Sequences of memory-record operations (for the dedup/order claim) -/

/-- A record operation on one channel memory: merging a fetched batch
(`update_channel_memory`) or saving a bot response (`save_bot_response`). -/
inductive MemOp
  | record (now : ℤ) (batch : List Entry)
  | save (now : ℤ) (response : String)

def applyMemOp (m : List Entry) : MemOp → List Entry
  | .record now batch => update_channel_memory m batch now
  | .save now response => save_bot_response_mem m response now

def applyMemOps (m : List Entry) (ops : List MemOp) : List Entry :=
  ops.foldl applyMemOp m

/-- The dedup key named by the spec: timestamp plus author. -/
def entryKey (e : Entry) : ℤ × Option Nat := (e.timestamp, e.author)

/-- The invariant claimed for channel memory: non-decreasing timestamps and
pairwise-distinct timestamps (hence pairwise-distinct dedup keys). -/
def MemInv (m : List Entry) : Prop :=
  m.Pairwise (fun a b => a.timestamp ≤ b.timestamp) ∧
    (m.map (·.timestamp)).Nodup

/-- Conditions under which one operation preserves `MemInv`: a recorded
batch is chronologically sorted, has pairwise-distinct timestamps and is
no older than anything in memory; a saved response is stamped no earlier
than anything in memory and at a fresh timestamp. -/
def goodMemOp (m : List Entry) : MemOp → Prop
  | .record _ batch =>
    batch.Pairwise (fun a b => a.timestamp ≤ b.timestamp) ∧
      (batch.map (·.timestamp)).Nodup ∧
      ∀ e ∈ batch, ∀ x ∈ m, x.timestamp ≤ e.timestamp
  | .save now _ => (∀ x ∈ m, x.timestamp ≤ now) ∧ now ∉ m.map (·.timestamp)

def goodMemOps : List Entry → List MemOp → Prop
  | _, [] => True
  | m, op :: ops => goodMemOp m op ∧ goodMemOps (applyMemOp m op) ops

/-! ### Basic lemmas about the token estimate and partitions -/

theorem estTotal_nil : estTotal [] = 0 := rfl

theorem estTotal_cons (a : CtxMsg) (l : List CtxMsg) :
    estTotal (a :: l) = estimate_tokens a.content + estTotal l := by
  simp [estTotal]

theorem estTotal_append (l₁ l₂ : List CtxMsg) :
    estTotal (l₁ ++ l₂) = estTotal l₁ + estTotal l₂ := by
  simp [estTotal]

theorem estTotal_partition (p : CtxMsg → Bool) (l : List CtxMsg) :
    estTotal l = estTotal (l.filter p) + estTotal (l.filter (fun m => !p m)) := by
  induction l with
  | nil => rfl
  | cons a t ih =>
    cases hp : p a <;> simp [List.filter_cons, hp, estTotal_cons] <;> omega

theorem length_filter_partition (p : CtxMsg → Bool) (l : List CtxMsg) :
    (l.filter p).length + (l.filter (fun m => !p m)).length = l.length := by
  induction l with
  | nil => rfl
  | cons a t ih =>
    cases hp : p a <;> simp [List.filter_cons, hp] <;> omega

/-! ### The trimming loop -/

theorem trimConv_spec (conv : List CtxMsg) : ∀ k : Nat,
    trimConv conv (k + estTotal conv) <:+ conv ∧
      (k + estTotal (trimConv conv (k + estTotal conv)) ≤ MAX_TOKENS_ESTIMATE ∨
        (trimConv conv (k + estTotal conv)).length ≤ 10) ∧
      min 10 conv.length ≤ (trimConv conv (k + estTotal conv)).length := by
  induction conv with
  | nil =>
    intro k
    exact ⟨List.suffix_refl _, Or.inr (by simp [trimConv]), by simp [trimConv]⟩
  | cons c rest ih =>
    intro k
    have hce : estTotal (c :: rest) = estimate_tokens c.content + estTotal rest :=
      estTotal_cons c rest
    by_cases h :
        k + estTotal (c :: rest) > MAX_TOKENS_ESTIMATE ∧ (c :: rest).length > 10
    · have harg : k + estTotal (c :: rest) - estimate_tokens c.content
          = k + estTotal rest := by
        rw [estTotal_cons]; omega
      have hrw : trimConv (c :: rest) (k + estTotal (c :: rest))
          = trimConv rest (k + estTotal rest) := by
        rw [trimConv, if_pos h, harg]
      obtain ⟨ih1, ih2, ih3⟩ := ih k
      rw [hrw]
      refine ⟨ih1.trans (List.suffix_cons c rest), ih2, ?_⟩
      · have hlen : rest.length + 1 > 10 := by
          simpa [List.length_cons] using h.2
        simp only [List.length_cons]
        omega
    · have hrw : trimConv (c :: rest) (k + estTotal (c :: rest)) = c :: rest := by
        rw [trimConv, if_neg h]
      rw [hrw]
      refine ⟨List.suffix_refl _, ?_, min_le_right _ _⟩
      rcases not_and_or.mp h with h1 | h1
      · exact Or.inl (by omega)
      · exact Or.inr (by omega)

theorem mem_of_suffix_filter_not_system {r conv : List CtxMsg}
    (hs : r <:+ conv) (l : List CtxMsg)
    (hc : conv = l.filter (fun m => !isSystem m)) :
    ∀ x ∈ r, isSystem x = false := by
  intro x hx
  have hx' : x ∈ l.filter (fun m => !isSystem m) := by
    rw [← hc]; exact hs.sublist.subset hx
  have := (List.mem_filter.mp hx').2
  simpa using this

/-- C5: for every message list, trimming preserves the system messages
exactly, keeps a suffix of the conversational messages (dropping only the
oldest ones), stops only when the estimated total is within the budget or
at most the minimum retained count (10) of conversational messages
remains, and never drops below that minimum when it was available. -/
theorem c5_trim_drops_oldest_until_within_budget (messages : List CtxMsg) :
    (trim_to_token_limit messages).filter isSystem = messages.filter isSystem ∧
      (trim_to_token_limit messages).filter (fun m => !isSystem m) <:+
        messages.filter (fun m => !isSystem m) ∧
      (estTotal (trim_to_token_limit messages) ≤ MAX_TOKENS_ESTIMATE ∨
        ((trim_to_token_limit messages).filter (fun m => !isSystem m)).length ≤ 10) ∧
      min 10 (messages.filter (fun m => !isSystem m)).length ≤
        ((trim_to_token_limit messages).filter (fun m => !isSystem m)).length := by
  by_cases hlen : messages.length ≤ 2
  · rw [trim_to_token_limit, if_pos hlen]
    refine ⟨rfl, List.suffix_refl _, Or.inr ?_, min_le_right _ _⟩
    have h1 : (messages.filter (fun m => !isSystem m)).length ≤ messages.length :=
      List.length_filter_le _ _
    omega
  · have hpart := estTotal_partition isSystem messages
    have hr := trimConv_spec (messages.filter (fun m => !isSystem m))
      (estTotal (messages.filter isSystem))
    obtain ⟨h1, h2, h3⟩ := hr
    have hrw : trim_to_token_limit messages
        = messages.filter isSystem ++
            trimConv (messages.filter (fun m => !isSystem m))
              (estTotal (messages.filter isSystem) +
                estTotal (messages.filter (fun m => !isSystem m))) := by
      rw [trim_to_token_limit, if_neg hlen, hpart]
    have hsysself : (messages.filter isSystem).filter isSystem
        = messages.filter isSystem := by
      apply List.filter_eq_self.mpr
      intro a ha
      exact (List.mem_filter.mp ha).2
    have hconvsys :
        (trimConv (messages.filter (fun m => !isSystem m))
            (estTotal (messages.filter isSystem) +
              estTotal (messages.filter (fun m => !isSystem m)))).filter isSystem
          = [] := by
      apply List.filter_eq_nil_iff.mpr
      intro a ha
      have := mem_of_suffix_filter_not_system h1 messages rfl a ha
      simp [this]
    have hsysconv : (messages.filter isSystem).filter (fun m => !isSystem m)
        = [] := by
      apply List.filter_eq_nil_iff.mpr
      intro a ha
      have := (List.mem_filter.mp ha).2
      simp [this]
    have hconvself :
        (trimConv (messages.filter (fun m => !isSystem m))
            (estTotal (messages.filter isSystem) +
              estTotal (messages.filter (fun m => !isSystem m)))).filter
            (fun m => !isSystem m)
          = trimConv (messages.filter (fun m => !isSystem m))
              (estTotal (messages.filter isSystem) +
                estTotal (messages.filter (fun m => !isSystem m))) := by
      apply List.filter_eq_self.mpr
      intro a ha
      have := mem_of_suffix_filter_not_system h1 messages rfl a ha
      simp [this]
    refine ⟨?_, ?_, ?_, ?_⟩
    · rw [hrw, List.filter_append, hsysself, hconvsys, List.append_nil]
    · rw [hrw, List.filter_append, hsysconv, List.nil_append, hconvself]
      exact h1
    · rw [hrw, List.filter_append, hsysconv, List.nil_append, hconvself,
        estTotal_append]
      rcases h2 with h2 | h2
      · exact Or.inl (by omega)
      · exact Or.inr h2
    · rw [hrw, List.filter_append, hsysconv, List.nil_append, hconvself]
      exact h3

/-! ### Context-builder bounds -/

theorem trim_length_le (messages : List CtxMsg) :
    (trim_to_token_limit messages).length ≤ messages.length := by
  by_cases hlen : messages.length ≤ 2
  · rw [trim_to_token_limit, if_pos hlen]
  · have hpart := estTotal_partition isSystem messages
    have h1 := (trimConv_spec (messages.filter (fun m => !isSystem m))
      (estTotal (messages.filter isSystem))).1
    have h2 := h1.sublist.length_le
    have h3 := length_filter_partition isSystem messages
    rw [trim_to_token_limit, if_neg hlen, hpart, List.length_append]
    omega

theorem get_relevant_context_length_le (memory : List Entry) (now : ℤ) :
    (get_relevant_context memory now).length ≤ MAX_CONTEXT_MESSAGES := by
  rw [get_relevant_context, takeNewest]
  split
  · simp only [List.length_drop]
    omega
  · omega

/-- C4 (amended): the output of the context builder never exceeds
`MAX_CONTEXT_MESSAGES + 3` messages (the cap of 30 bounds the
memory-derived conversational context; the two system messages and the
trailing triggering message come on top), and its final element is always
the triggering message tagged `display_name: content` verbatim. -/
theorem c4_output_bounded_and_ends_with_trigger (ctx : CtxState) (channel : Nat)
    (fetched : List Entry) (authorName msgContent sysPrompt : String) (now : ℤ) :
    (build_context ctx channel fetched authorName msgContent sysPrompt now).1.length ≤
        MAX_CONTEXT_MESSAGES + 3 ∧
      (build_context ctx channel fetched authorName msgContent sysPrompt now).1.getLast? =
        some { role := .user, content := authorName ++ ": " ++ msgContent } := by
  constructor
  · show (trim_to_token_limit _ ++ [_]).length ≤ MAX_CONTEXT_MESSAGES + 3
    rw [List.length_append]
    have h1 := trim_length_le
      ({ role := Role.system, content := sysPrompt } ::
        { role := Role.system, content := INSTRUCTION_MSG } ::
          get_relevant_context
            (update_channel_memory (ctx.channel_conversations channel) fetched now)
            now)
    have h2 := get_relevant_context_length_le
      (update_channel_memory (ctx.channel_conversations channel) fetched now) now
    simp only [List.length_cons, List.length_nil] at h1 ⊢
    omega
  · show (trim_to_token_limit _ ++ [_]).getLast? = _
    rw [List.getLast?_concat]

/-! ### A concrete over-budget context (for the implicit budget claim) -/

/-- A 1300-character message body: 325 estimated tokens. -/
def longContent : String := ⟨List.replicate 1300 'a'⟩

def bigEntry : Entry :=
  { role := .user, content := longContent, timestamp := 100, author := some 2 }

/-- Twelve long in-window entries in the memory of channel 1. -/
def ctxBig : CtxState :=
  { channel_conversations := fun c => if c = 1 then List.replicate 12 bigEntry else [],
    bot_responses := fun _ => [] }

/-- C10: there are inputs for which the built context exceeds the token
budget: twelve 325-token memory entries leave ten conversational messages
(3250 estimated tokens > 3000) after trimming stops at the minimum
retained count, both system messages survive, and the triggering message
is appended after trimming — eleven conversational messages in the final
output, so the budget bounds neither the trimmed list nor the output. -/
theorem c10_token_budget_not_a_bound :
    MAX_TOKENS_ESTIMATE <
        estTotal (build_context ctxBig 1 [] "u" "t" "p" 100).1 ∧
      ((build_context ctxBig 1 [] "u" "t" "p" 100).1.filter isSystem).length = 2 ∧
      ((build_context ctxBig 1 [] "u" "t" "p" 100).1.filter
          (fun m => !isSystem m)).length = 11 ∧
      (build_context ctxBig 1 [] "u" "t" "p" 100).1.getLast? =
        some { role := .user, content := "u: t" } := by
  decide

/-! ### Preservation of the memory invariant -/

theorem append_suffix_mono {α : Type} {s t : List α} (u : List α) (h : s <:+ t) :
    s ++ u <:+ t ++ u := by
  obtain ⟨w, hw⟩ := h
  exact ⟨w, by rw [← List.append_assoc, hw]⟩

theorem pushCapped_suffix {α : Type} (cap : Nat) (l : List α) (e : α) :
    pushCapped cap l e <:+ l ++ [e] := by
  rw [pushCapped]
  split
  · exact List.suffix_refl _
  · exact append_suffix_mono [e] (List.drop_suffix 1 l)

theorem fold_push_suffix (existing : List ℤ) (batch : List Entry) :
    ∀ l : List Entry,
      batch.foldl
          (fun acc msg =>
            if msg.timestamp ∈ existing then acc
            else pushCapped MEMORY_CAP acc msg) l
        <:+ l ++ batch.filter (fun e => decide (e.timestamp ∉ existing)) := by
  induction batch with
  | nil => intro l; simp
  | cons e rest ih =>
    intro l
    by_cases h : e.timestamp ∈ existing
    · simpa [List.foldl_cons, if_pos h, List.filter_cons, h] using ih l
    · have h1 := ih (pushCapped MEMORY_CAP l e)
      have h2 :
          pushCapped MEMORY_CAP l e ++
              rest.filter (fun e => decide (e.timestamp ∉ existing))
            <:+ (l ++ [e]) ++
              rest.filter (fun e => decide (e.timestamp ∉ existing)) :=
        append_suffix_mono _ (pushCapped_suffix MEMORY_CAP l e)
      have h3 := h1.trans h2
      simpa [List.foldl_cons, if_neg h, List.filter_cons, h,
        List.append_assoc] using h3

theorem MemInv.of_sublist {l₁ l₂ : List Entry} (h : List.Sublist l₁ l₂) (hinv : MemInv l₂) :
    MemInv l₁ :=
  ⟨hinv.1.sublist h, hinv.2.sublist (h.map _)⟩

theorem update_channel_memory_preserves (m batch : List Entry) (now : ℤ)
    (hinv : MemInv m)
    (hsorted : batch.Pairwise (fun a b => a.timestamp ≤ b.timestamp))
    (hnodup : (batch.map (·.timestamp)).Nodup)
    (hge : ∀ e ∈ batch, ∀ x ∈ m, x.timestamp ≤ e.timestamp) :
    MemInv (update_channel_memory m batch now) := by
  have hevict : List.Sublist (evictOld now m) m := List.dropWhile_sublist _
  have hinv' : MemInv (evictOld now m) := hinv.of_sublist hevict
  have hfold := fold_push_suffix ((evictOld now m).map (·.timestamp)) batch
    (evictOld now m)

  have hsub :
      List.Sublist (update_channel_memory m batch now)
        (evictOld now m ++
          batch.filter
            (fun e => decide (e.timestamp ∉ (evictOld now m).map (·.timestamp)))) := by
    have : update_channel_memory m batch now
        = batch.foldl
            (fun acc msg =>
              if msg.timestamp ∈ (evictOld now m).map (·.timestamp) then acc
              else pushCapped MEMORY_CAP acc msg) (evictOld now m) := rfl
    rw [this]
    exact hfold.sublist
  refine MemInv.of_sublist hsub ⟨?_, ?_⟩
  · rw [List.pairwise_append]
    refine ⟨hinv'.1, hsorted.sublist (List.filter_sublist _), ?_⟩
    intro a ha b hb
    have hbmem : b ∈ batch := (List.filter_sublist _).subset hb
    exact hge b hbmem a (hevict.subset ha)
  · rw [List.map_append, List.nodup_append]
    refine ⟨hinv'.2, hnodup.sublist ((List.filter_sublist _).map _), ?_⟩
    intro t ht1 ht2
    obtain ⟨e, he, rfl⟩ := List.mem_map.mp ht2
    have := (List.mem_filter.mp he).2
    simp only [decide_eq_true_eq] at this
    exact this ht1

theorem save_bot_response_mem_preserves (m : List Entry) (resp : String) (now : ℤ)
    (hinv : MemInv m) (hge : ∀ x ∈ m, x.timestamp ≤ now)
    (hfresh : now ∉ m.map (·.timestamp)) :
    MemInv (save_bot_response_mem m resp now) := by
  have hsub :=
    (pushCapped_suffix MEMORY_CAP m
      { role := .assistant, content := "exia: " ++ resp, timestamp := now,
        author := none }).sublist
  refine MemInv.of_sublist hsub ⟨?_, ?_⟩
  · rw [List.pairwise_append]
    refine ⟨hinv.1, List.pairwise_singleton _ _, ?_⟩
    intro a ha b hb
    rw [List.mem_singleton] at hb
    subst hb
    exact hge a ha
  · rw [List.map_append, List.nodup_append]
    refine ⟨hinv.2, List.nodup_singleton _, ?_⟩
    intro t ht1 ht2
    simp only [List.map_cons, List.map_nil, List.mem_singleton] at ht2
    subst ht2
    exact hfresh ht1

theorem applyMemOp_preserves (m : List Entry) (op : MemOp) (hinv : MemInv m)
    (hgood : goodMemOp m op) : MemInv (applyMemOp m op) := by
  cases op with
  | record now batch =>
    obtain ⟨h1, h2, h3⟩ := hgood
    exact update_channel_memory_preserves m batch now hinv h1 h2 h3
  | save now resp =>
    obtain ⟨h1, h2⟩ := hgood
    exact save_bot_response_mem_preserves m resp now hinv h1 h2

/-- C3 (amended): deduplication is by timestamp alone and only against the
entries present when a batch arrives, and `save_bot_response` appends
unconditionally — so the invariant holds only for well-formed operation
sequences: every recorded batch is chronologically sorted with
pairwise-distinct timestamps and no older than the memory, and every saved
response is stamped fresh and no earlier than the memory.  Under those
conditions each timestamp — and hence each `(timestamp, author)` dedup
key — occurs at most once and the entries stay in non-decreasing
timestamp order. -/
theorem c3_invariant_for_good_sequences (ops : List MemOp) : ∀ m : List Entry,
    MemInv m → goodMemOps m ops → MemInv (applyMemOps m ops) := by
  induction ops with
  | nil => intro m hinv _; exact hinv
  | cons op rest ih =>
    intro m hinv hgood
    exact ih (applyMemOp m op) (applyMemOp_preserves m op hinv hgood.1) hgood.2

def entryA : Entry := { role := .user, content := "a", timestamp := 100, author := some 1 }
def entryB : Entry := { role := .user, content := "b", timestamp := 50, author := some 2 }

/-- C3 (counterexample): recording a batch whose entries share a dedup key
stores that key twice (the timestamp snapshot is taken before the batch is
appended), and a fetched entry older than an entry already in memory is
appended after it — the resulting memory violates both the at-most-once
and the non-decreasing-timestamp parts of the claim. -/
theorem c3_counterexample :
    applyMemOps [] [.record 100 [entryA], .record 100 [entryB, entryB]]
        = [entryA, entryB, entryB] ∧
      ((applyMemOps [] [.record 100 [entryA], .record 100 [entryB, entryB]]).map
          entryKey).count (50, some 2) = 2 ∧
      entryB.timestamp < entryA.timestamp ∧
      ¬ MemInv (applyMemOps [] [.record 100 [entryA], .record 100 [entryB, entryB]]) := by
  refine ⟨by decide, by decide, by decide, ?_⟩
  intro hinv
  have h1 : ((50 : ℤ)) ∈ [(100 : ℤ), 50, 50] := by decide
  have := hinv.2
  have heq : (applyMemOps [] [.record 100 [entryA], .record 100 [entryB, entryB]]).map
      (·.timestamp) = [100, 50, 50] := by decide
  rw [heq] at this
  simp at this

/-- C3 (witness): a well-formed sequence — one sorted fresh batch and one
later save — keeps the invariant. -/
theorem c3_witness :
    MemInv (applyMemOps [] [.record 100 [entryA], .save 150 "ok"]) := by
  apply c3_invariant_for_good_sequences
  · exact ⟨List.Pairwise.nil, by simp⟩
  · refine ⟨⟨List.pairwise_singleton _ _, by simp, by decide⟩, ⟨by decide, by decide⟩, trivial⟩

def smallEntry : Entry :=
  { role := .user, content := "a", timestamp := 100, author := some 1 }

/-- Thirty short in-window entries in the memory of channel 1. -/
def ctxThirty : CtxState :=
  { channel_conversations := fun c => if c = 1 then List.replicate 30 smallEntry else [],
    bot_responses := fun _ => [] }

/-- C4 (counterexample): with thirty short messages in the window the
builder returns 33 messages — two system messages, the 30-message memory
window, and the appended trigger — exceeding the configured
`max_context_messages` cap of 30, which the claim states as a bound on the
returned list. -/
theorem c4_counterexample :
    (build_context ctxThirty 1 [] "u" "hi" "p" 100).1.length = 33 ∧
      MAX_CONTEXT_MESSAGES <
        (build_context ctxThirty 1 [] "u" "hi" "p" 100).1.length := by
  decide

/-! ### Reply-decision lemmas -/

theorem conversationStep_ne_reply_of_cooldown (st : BotState) (msg : Msg)
    (now : ℤ) (rReact rReply : ℚ)
    (h : now - st.user_cooldowns msg.author < 20) :
    (conversationStep st msg now rReact rReply).1 ≠ .reply := by
  simp only [conversationStep]
  split_ifs <;> simp_all

theorem conversationStep_reply_updates (st : BotState) (msg : Msg) (now : ℤ)
    (rReact rReply : ℚ)
    (h : (conversationStep st msg now rReact rReply).1 = .reply) :
    (conversationStep st msg now rReact rReply).2.user_cooldowns msg.author = now ∧
      (conversationStep st msg now rReact rReply).2.last_engaged_time = now := by
  simp only [conversationStep] at h ⊢
  split_ifs at h ⊢ <;> simp_all

theorem conversationStep_bored_unchanged (st : BotState) (msg : Msg) (now : ℤ)
    (rReact rReply : ℚ) :
    (conversationStep st msg now rReact rReply).2.bored_chance = st.bored_chance := by
  simp only [conversationStep]
  split_ifs <;> rfl

theorem on_message_ne_reply_of_cooldown (st : BotState) (msg : Msg) (now : ℤ)
    (rReact rReply : ℚ) (h : now - st.user_cooldowns msg.author < 20) :
    (on_message st msg now rReact rReply).1 ≠ .reply := by
  simp only [on_message]
  split_ifs <;>
    first
    | exact conversationStep_ne_reply_of_cooldown _ _ _ _ _ h
    | simp

theorem on_message_reply_updates (st : BotState) (msg : Msg) (now : ℤ)
    (rReact rReply : ℚ)
    (h : (on_message st msg now rReact rReply).1 = .reply) :
    (on_message st msg now rReact rReply).2.user_cooldowns msg.author = now ∧
      (on_message st msg now rReact rReply).2.last_engaged_time = now := by
  simp only [on_message] at h ⊢
  split_ifs at h ⊢ <;>
    first
    | exact conversationStep_reply_updates _ _ _ _ _ h
    | simp_all

theorem on_message_bored_unchanged (st : BotState) (msg : Msg) (now : ℤ)
    (rReact rReply : ℚ) :
    (on_message st msg now rReact rReply).2.bored_chance = st.bored_chance := by
  simp only [on_message]
  split_ifs <;>
    first
    | rfl
    | exact conversationStep_bored_unchanged _ _ _ _ _

/-- C1: once a reply is accepted for a message from user U at time `now`,
the per-user cooldown and the engagement timestamp already hold `now` in
the state with which generation is dispatched (the `.reply` outcome
carries the state passed to the suspending `generate_response` call), and
a second message from U arriving `d < 20` seconds later — processed
against exactly that state, i.e. before the first reply is generated —
never yields a second accepted reply, mention or not. -/
theorem c1_cooldown_blocks_second_reply (st : BotState) (msg1 msg2 : Msg)
    (now d : ℤ) (r1 r2 r3 r4 : ℚ) (hauth : msg2.author = msg1.author)
    (hd : d < 20)
    (haccept : (on_message st msg1 now r1 r2).1 = .reply) :
    (on_message st msg1 now r1 r2).2.user_cooldowns msg1.author = now ∧
      (on_message st msg1 now r1 r2).2.last_engaged_time = now ∧
      (on_message (on_message st msg1 now r1 r2).2 msg2 (now + d) r3 r4).1 ≠
        .reply := by
  obtain ⟨hcd, hle⟩ := on_message_reply_updates st msg1 now r1 r2 haccept
  refine ⟨hcd, hle, ?_⟩
  apply on_message_ne_reply_of_cooldown
  rw [hauth, hcd]
  omega

/-- A fully permissive state: nobody blacklisted, enabled, no timeout, no
cooldowns pending, defaults everywhere. -/
def stReady : BotState where
  blacklist := []
  bot_enabled := true
  boredom_enabled := true
  phantom_replies_enabled := true
  timeout_until := 0
  user_cooldowns := fun _ => 0
  command_cooldowns := fun _ => 0
  last_engaged_time := 0
  last_user_message_time := 0
  reply_chance_base := mkRat 1 10
  bored_chance := 0
  user_stats := fun _ => {}
  guild_settings := fun _ => {}
  ctx := ⟨fun _ => [], fun _ => []⟩

def msgHello : Msg := ⟨5, "exia hello", 1, 1, []⟩
def msgAgain : Msg := ⟨5, "exia again", 1, 1, []⟩

theorem c1_witness :
    (on_message (on_message stReady msgHello 100 1 0).2 msgAgain (100 + 5) 1 0).1 ≠
      .reply :=
  (c1_cooldown_blocks_second_reply stReady msgHello msgAgain 100 5 1 0 1 0 rfl
    (by decide) (by decide)).2.2

theorem conversationStep_mention_reply (st : BotState) (msg : Msg) (now : ℤ)
    (rReact rReply : ℚ)
    (hen : st.bot_enabled = true)
    (hto : ¬ now < st.timeout_until)
    (hch : msg.channel ∉ (st.guild_settings msg.guild).disabled_channels)
    (hr : ¬ rReact < REACTION_CHANCE)
    (hm : mentionsExia (stripStr msg.content) = true)
    (hcd : ¬ now - st.user_cooldowns msg.author < 20) :
    (conversationStep st msg now rReact rReply).1 = .reply := by
  simp only [conversationStep]
  split_ifs <;> simp_all <;> omega

/-- C2 (amended): a whole-word, case-insensitive `exia` mention from a
non-blacklisted sender while the bot is enabled, not timed out, the
channel not disabled, the message not `!`-prefixed, the independent
reaction draw not firing, and the sender outside their 20-second cooldown
always yields the reply decision, independently of the reply-probability
draw. -/
theorem c2_mention_forces_reply (st : BotState) (msg : Msg) (now : ℤ)
    (rReact rReply : ℚ)
    (hb : msg.author ∉ st.blacklist)
    (hcmd : beginsWith "!" (lowerStr (stripStr msg.content)) = false)
    (hen : st.bot_enabled = true)
    (hto : ¬ now < st.timeout_until)
    (hch : msg.channel ∉ (st.guild_settings msg.guild).disabled_channels)
    (hr : ¬ rReact < REACTION_CHANCE)
    (hm : mentionsExia (stripStr msg.content) = true)
    (hcd : ¬ now - st.user_cooldowns msg.author < 20) :
    (on_message st msg now rReact rReply).1 = .reply := by
  simp only [on_message]
  rw [if_neg hb]
  rw [if_neg (show ¬ beginsWith "!" (lowerStr (stripStr msg.content)) = true by
    simp [hcmd])]
  exact conversationStep_mention_reply _ _ _ _ _ hen hto hch hr hm hcd

theorem c2_witness : (on_message stReady msgHello 100 1 0).1 = .reply :=
  c2_mention_forces_reply stReady msgHello 100 1 0 (by decide) (by decide)
    (by decide) (by decide) (by decide) (by decide) (by decide) (by decide)

/-- C2 (counterexample): with every condition of the claim satisfied — a
mention from a non-blacklisted sender, the bot enabled, not timed out —
the reaction draw, sampled first, can still preempt the reply: with a
react draw of 0 the decision engine selects the emoji reaction, not
reply, so the selection is not independent of the random draws. -/
theorem c2_counterexample :
    (5 ∉ stReady.blacklist) ∧ stReady.bot_enabled = true ∧
      ¬ ((100 : ℤ) < stReady.timeout_until) ∧
      mentionsExia (stripStr msgHello.content) = true ∧
      (on_message stReady msgHello 100 0 0).1 = .reacted ∧
      Outcome.reacted ≠ Outcome.reply := by
  decide

/-- A state in the sustained-activity situation: the last bot engagement
was 100 seconds ago (inside the 180-second window), the previous user
message long before that, a guild reply-chance override of 0.5 is set and
the global base is 0.1. -/
def stOverride : BotState :=
  { stReady with
    last_engaged_time := 900
    guild_settings := fun _ => { reply_chance_override := some (mkRat 1 2) } }

def msgPlain : Msg := ⟨7, "nothing much", 1, 1, []⟩

/-- C6: the sustained-activity tier is dead code, so the override is never
sampled.  `on_message` assigns `last_user_message_time = now` before
computing `recent = now - last_user_message_time < 5`, hence `recent` is
always true and the chance is always 0.9 or 0.05 — never the configured
base or the guild override.  At the failing input (override 0.5, draw 0.3,
engagement gap 100 s) the claim demands a reply (0.3 < 0.5); the code
skips, because it samples 0.3 against 0.05. -/
theorem c6_override_never_sampled :
    (stOverride.guild_settings 1).reply_chance_override = some (mkRat 1 2) ∧
      stOverride.reply_chance_base = mkRat 1 10 ∧
      mentionsExia (stripStr msgPlain.content) = false ∧
      (1000 : ℤ) - stOverride.last_engaged_time < 180 ∧
      mkRat 3 10 < mkRat 1 2 ∧
      (on_message stOverride msgPlain 1000 1 (mkRat 3 10)).1 = .skipped ∧
      ∀ (lastEngaged now : ℤ) (base : ℚ),
        computeChance now lastEngaged now base = mkRat 9 10 ∨
          computeChance now lastEngaged now base = mkRat 1 20 := by
  refine ⟨rfl, rfl, by decide, by decide, by decide, by decide, ?_⟩
  intro le now base
  rw [computeChance]
  rw [if_pos (show now - now < 5 by omega)]
  split_ifs
  · exact Or.inl rfl
  · exact Or.inr rfl

/-- C7 (amended): the boredom chance stays within `[0, BORED_CHANCE_MAX]`
and never decreases across an idle-loop iteration that sends no bored
message; it resets to 0 exactly when a bored message is dispatched; but an
accepted conversational reply does not reset it — `on_message` leaves
`bored_chance` untouched on every path. -/
theorem c7_boredom_bounds_reset_only_on_bored_send (st : BotState) (now : ℤ)
    (r : ℚ) (hc : Bool) (msg : Msg) (t : ℤ) (r1 r2 : ℚ) :
    (0 ≤ st.bored_chance → st.bored_chance ≤ BORED_CHANCE_MAX →
        0 ≤ (boredom_step st now r hc).1.bored_chance ∧
          (boredom_step st now r hc).1.bored_chance ≤ BORED_CHANCE_MAX) ∧
      (st.bored_chance ≤ BORED_CHANCE_MAX → (boredom_step st now r hc).2 = false →
        st.bored_chance ≤ (boredom_step st now r hc).1.bored_chance) ∧
      ((boredom_step st now r hc).2 = true →
        (boredom_step st now r hc).1.bored_chance = 0) ∧
      (on_message st msg t r1 r2).2.bored_chance = st.bored_chance := by
  have hincr : (0 : ℚ) < BORED_CHANCE_INCREMENT := by decide
  have hmax0 : (0 : ℚ) ≤ BORED_CHANCE_MAX := by decide
  refine ⟨?_, ?_, ?_, on_message_bored_unchanged st msg t r1 r2⟩
  · intro h0 hm
    simp only [boredom_step]
    split_ifs with h1 h2 h3
    · exact ⟨h0, hm⟩
    · exact ⟨le_refl 0, hmax0⟩
    · constructor
      · exact le_min hmax0 (by linarith)
      · exact min_le_left _ _
    · exact ⟨h0, hm⟩
  · intro hm
    simp only [boredom_step]
    split_ifs with h1 h2 h3
    · intro _; exact le_refl _
    · intro hfalse; simp at hfalse
    · intro _
      exact le_min hm (by linarith)
    · intro _; exact le_refl _
  · simp only [boredom_step]
    split_ifs with h1 h2 h3
    · intro hfalse; simp at hfalse
    · intro _; rfl
    · intro hfalse; simp at hfalse
    · intro hfalse; simp at hfalse

theorem c7_witness :
    0 ≤ (boredom_step stReady 1000 1 true).1.bored_chance ∧
      (boredom_step stReady 1000 1 true).1.bored_chance ≤ BORED_CHANCE_MAX :=
  (c7_boredom_bounds_reset_only_on_bored_send stReady 1000 1 true msgHello 0 0
    0).1 (by decide) (by decide)

def stBored : BotState := { stReady with bored_chance := mkRat 1 25 }

/-- C7 (counterexample): an accepted conversational reply is bot-initiated
speech, yet it leaves the accumulated boredom chance at its nonzero value
instead of resetting it to 0 — only a bored-message send resets it. -/
theorem c7_counterexample :
    (on_message stBored msgHello 100 1 0).1 = .reply ∧
      (on_message stBored msgHello 100 1 0).2.bored_chance = mkRat 1 25 ∧
      (mkRat 1 25 : ℚ) ≠ 0 := by
  decide

/-- C8 (amended): a message from a blacklisted sender is dropped with the
state exactly unchanged; a non-command message arriving while the bot is
disabled or timed out is skipped, leaving cooldowns, engagement
timestamps, memory and every other field unchanged — except the user
statistics of the sender, which are updated (messages_sent incremented,
last_seen refreshed) before the enabled/timeout check. -/
theorem c8_skip_paths (st : BotState) (msg : Msg) (now : ℤ) (r1 r2 : ℚ) :
    (msg.author ∈ st.blacklist →
        on_message st msg now r1 r2 = (.blacklisted, st)) ∧
      (msg.author ∉ st.blacklist →
        beginsWith "!" (lowerStr (stripStr msg.content)) = false →
        (st.bot_enabled = false ∨ now < st.timeout_until) →
        on_message st msg now r1 r2 =
          (.suppressed, update_user_stats st msg.author .message now)) ∧
      (update_user_stats st msg.author .message now).user_cooldowns =
        st.user_cooldowns ∧
      (update_user_stats st msg.author .message now).command_cooldowns =
        st.command_cooldowns ∧
      (update_user_stats st msg.author .message now).last_engaged_time =
        st.last_engaged_time ∧
      (update_user_stats st msg.author .message now).last_user_message_time =
        st.last_user_message_time ∧
      (update_user_stats st msg.author .message now).ctx = st.ctx ∧
      (update_user_stats st msg.author .message now).bored_chance =
        st.bored_chance ∧
      (update_user_stats st msg.author .message now).user_stats msg.author =
        bumpStats (st.user_stats msg.author) .message now ∧
      ∀ u, u ≠ msg.author →
        (update_user_stats st msg.author .message now).user_stats u =
          st.user_stats u := by
  refine ⟨?_, ?_, rfl, rfl, rfl, rfl, rfl, rfl, ?_, ?_⟩
  · intro hbl
    rw [on_message, if_pos hbl]
  · intro hb hcmd hdis
    have hdis' :
        ¬(update_user_stats st msg.author .message now).bot_enabled ∨
          now < (update_user_stats st msg.author .message now).timeout_until := by
      rcases hdis with h | h
      · exact Or.inl (by simp [update_user_stats, h])
      · exact Or.inr (by simpa [update_user_stats] using h)
    simp only [on_message]
    rw [if_neg hb]
    rw [if_neg (show ¬ beginsWith "!" (lowerStr (stripStr msg.content)) = true by
      simp [hcmd])]
    simp only [conversationStep]
    rw [if_pos hdis']
  · simp [update_user_stats]
  · intro u hu
    simp [update_user_stats, hu]

def stDisabled : BotState := { stReady with bot_enabled := false }
def msgNoMention : Msg := ⟨5, "hello there", 1, 1, []⟩

/-- C8 (counterexample): a message arriving while the bot is disabled is
skipped, but the user statistics of the sender are mutated nonetheless —
`update_user_stats` runs before the enabled/timeout check. -/
theorem c8_counterexample :
    stDisabled.bot_enabled = false ∧
      (on_message stDisabled msgNoMention 100 1 1).1 = .suppressed ∧
      (on_message stDisabled msgNoMention 100 1 1).2.user_stats 5 ≠
        stDisabled.user_stats 5 := by
  decide

theorem c8_witness :
    on_message stDisabled msgNoMention 100 1 1 =
      (.suppressed, update_user_stats stDisabled 5 .message 100) :=
  (c8_skip_paths stDisabled msgNoMention 100 1 1).2.1 (by decide) (by decide)
    (Or.inl (by decide))

/-! ### Completion-client failure handling -/

theorem run_attempts_none (l : List LLMAttempt)
    (h : ∀ a ∈ l, isTerminalFailure a = true) : run_attempts l = none := by
  induction l with
  | nil => rfl
  | cons a rest ih =>
    cases a with
    | ok payload =>
      cases payload with
      | none => rfl
      | some t =>
        have := h _ (List.mem_cons_self _ _)
        simp [isTerminalFailure] at this
    | rateLimited => exact ih fun x hx => h x (List.mem_cons_of_mem _ hx)
    | httpError s => exact ih fun x hx => h x (List.mem_cons_of_mem _ hx)
    | timeoutErr => exact ih fun x hx => h x (List.mem_cons_of_mem _ hx)
    | exc e => exact ih fun x hx => h x (List.mem_cons_of_mem _ hx)

/-- C9 (amended, enhanced variant): when every attempted request within
the retry bound fails terminally (timeout, exception, non-success status,
or a malformed 200 payload), `call_llm` returns `None` rather than raising,
and `generate_response` substitutes the fixed fallback phrase, leaving the
conversation memory untouched. -/
theorem c9_terminal_failure_yields_fixed_fallback (oracle : List LLMAttempt)
    (hfail : ∀ a ∈ oracle.take API_RETRIES, isTerminalFailure a = true) :
    call_llm oracle = none ∧
      ∀ (ctx : CtxState) (channel : Nat) (now : ℤ),
        generate_response ctx channel (call_llm oracle) now =
          (FALLBACK_REPLY, ctx) := by
  have h1 : call_llm oracle = none := run_attempts_none _ hfail
  exact ⟨h1, fun ctx channel now => by rw [h1]; rfl⟩

def oracleFail : List LLMAttempt := [.timeoutErr, .httpError 500, .exc "boom"]
def ctxEmpty : CtxState := ⟨fun _ => [], fun _ => []⟩

theorem c9_witness :
    call_llm oracleFail = none ∧
      generate_response ctxEmpty 1 (call_llm oracleFail) 0 =
        (FALLBACK_REPLY, ctxEmpty) := by
  have h := c9_terminal_failure_yields_fixed_fallback oracleFail (by decide)
  exact ⟨h.1, h.2 ctxEmpty 1 0⟩

/-- C9 (counterexample, legacy variant src/exi.py): there the completion
call propagates its exception to the call site in `on_message`, whose
handler substitutes a reply embedding the exception text — two different
failures produce two different replies, so the substituted reply is not a
fixed fallback phrase. -/
theorem c9_counterexample :
    exi_on_message_reply (.error "boom") = "exia: lmao something broke — boom" ∧
      exi_on_message_reply (.error "boom") ≠ exi_on_message_reply (.error "zap") := by
  exact ⟨rfl, by decide⟩

end Exia
